import Mathlib

/-!
Verification of the ChatKit-powered assistant backend.

This file gives a shallow embedding of the persistence layer
(`SQLiteStore` in src/app/store.py) and the configuration / input-mode /
title-generation logic of the turn orchestrator (`MyChatKitServer` in
src/app/server.py), together with theorems settling the specified
properties (tenant isolation, pagination, per-turn override resetting,
deletion idempotence, upsert semantics, background-failure swallowing).

Modelling conventions:
* the SQLite tables become Lean lists of row structures; `INSERT OR
  REPLACE` keyed on a primary key becomes "filter out the old row, append
  the new one"; `SELECT ... fetchone` becomes `List.find?`;
* timestamps are `Nat` (ISO-8601 strings compare chronologically, so only
  their order matters); `ORDER BY created_at` is modelled with
  `List.insertionSort`, i.e. any list sorted by the timestamp that is a
  permutation of the matching rows;
* serialized pydantic payloads round-trip, so a row simply holds the
  deserialized value;
* exceptions (`NotFoundError`) become `Except StoreError`.
-/

/-- Request context of one HTTP request (src/app/types.py as used by
store.py and server.py): the store consults only `context.user_id`. -/
structure RequestContext where
  userId : String
deriving DecidableEq

/-- Thread metadata as persisted in the `threads` table `data` column:
id, creation time, optional title, and the free-form string metadata
mapping (which holds the `last_response_id` resumption token). -/
structure ThreadMetadata where
  id : String
  createdAt : Nat
  title : Option String
  metadata : List (String × String)
deriving DecidableEq

/-- A row of the `threads` table; the stored `id` / `created_at` columns
duplicate `thread.id` / `thread.created_at` (save_thread writes them from
the thread), so only `user_id` and the payload are kept separately. -/
structure ThreadRow where
  userId : String
  thread : ThreadMetadata
deriving DecidableEq

/-- A thread item as persisted in the `items` table `data` column. -/
structure ThreadItem where
  id : String
  createdAt : Nat
  payload : String
deriving DecidableEq

/-- A row of the `items` table; the stored `id` / `created_at` columns
duplicate the item's own fields (see add_thread_item / save_item). -/
structure ItemRow where
  threadId : String
  userId : String
  item : ThreadItem
deriving DecidableEq

/-- An attachment as persisted in the `attachments` table `data` column. -/
structure Attachment where
  id : String
  payload : String
deriving DecidableEq

/-- A row of the `attachments` table. -/
structure AttachmentRow where
  userId : String
  attachment : Attachment
deriving DecidableEq

/-- The SQLite database state: the three tables created by `_init_db`. -/
structure DB where
  threads : List ThreadRow
  items : List ItemRow
  attachments : List AttachmentRow
deriving DecidableEq

/-- `chatkit.store.NotFoundError` with its message. -/
inductive StoreError where
  | notFound : String → StoreError
deriving DecidableEq

/-- `chatkit.types.Page` as constructed by store.py: the sliced data,
the `has_more` flag and the next cursor (`after`). -/
structure Page (α : Type) where
  data : List α
  hasMore : Bool
  after : Option String
deriving DecidableEq

instance {ε α : Type} [DecidableEq ε] [DecidableEq α] : DecidableEq (Except ε α) := fun x y =>
  match x, y with
  | Except.error a, Except.error b =>
    if h : a = b then isTrue (congrArg Except.error h)
    else isFalse (fun hc => h (Except.error.inj hc))
  | Except.ok a, Except.ok b =>
    if h : a = b then isTrue (congrArg Except.ok h)
    else isFalse (fun hc => h (Except.ok.inj hc))
  | Except.error _, Except.ok _ => isFalse (fun hc => Except.noConfusion hc)
  | Except.ok _, Except.error _ => isFalse (fun hc => Except.noConfusion hc)

/-- Index of the first element equal to `a`, mirroring the cursor scan
`for i, t in enumerate(threads): if t.id == after: start_idx = i + 1; break`
shared by load_threads and load_thread_items. -/
def firstMatchIdx (a : String) : List String → Option Nat
  | [] => none
  | x :: xs => if x = a then some 0 else (firstMatchIdx a xs).map (· + 1)

/-- The `start_idx` computation of store.py: 0 without a cursor (Python
`if after:` also treats the empty string as no cursor), one past the first
matching id when the cursor is found, and 0 when it is stale/unknown. -/
def startIdx (ids : List String) (after : Option String) : Nat :=
  match after with
  | none => 0
  | some a =>
    if a = "" then 0
    else
      match firstMatchIdx a ids with
      | some i => i + 1
      | none => 0

/-- The page construction shared verbatim by `load_threads` and
`load_thread_items` (store.py lines 86-97 and 125-136):

    sliced   = xs[start_idx : start_idx + limit]
    has_more = (start_idx + limit) < len(xs)
    after    = sliced[-1].id if sliced and has_more else None
-/
def paginate {α : Type} (getId : α → String) (xs : List α) (after : Option String)
    (limit : Nat) : Page α :=
  let s := startIdx (xs.map getId) after
  let sliced := (xs.drop s).take limit
  let hasMore := decide (s + limit < xs.length)
  { data := sliced
    hasMore := hasMore
    after := if hasMore then sliced.getLast?.map getId else none }

/-- `ORDER BY created_at DESC` comparison on thread rows. -/
def threadRowDescLE (a b : ThreadRow) : Prop :=
  b.thread.createdAt ≤ a.thread.createdAt

instance : DecidableRel threadRowDescLE := fun a b =>
  Nat.decLe b.thread.createdAt a.thread.createdAt

instance : IsTotal ThreadRow threadRowDescLE :=
  ⟨fun a b => Nat.le_total b.thread.createdAt a.thread.createdAt⟩

instance : IsTrans ThreadRow threadRowDescLE :=
  ⟨fun _ _ _ hab hbc => Nat.le_trans hbc hab⟩

/-- `ORDER BY created_at ASC` comparison on item rows. -/
def itemRowAscLE (a b : ItemRow) : Prop :=
  a.item.createdAt ≤ b.item.createdAt

instance : DecidableRel itemRowAscLE := fun a b =>
  Nat.decLe a.item.createdAt b.item.createdAt

instance : IsTotal ItemRow itemRowAscLE :=
  ⟨fun a b => Nat.le_total a.item.createdAt b.item.createdAt⟩

instance : IsTrans ItemRow itemRowAscLE :=
  ⟨fun _ _ _ => Nat.le_trans⟩

/-- Lookup in a thread's free-form metadata mapping
(`thread.metadata.get(key)`). -/
def metaGet (m : List (String × String)) (k : String) : Option String :=
  (m.find? (fun kv => kv.1 == k)).map (fun kv => kv.2)

/-- `SQLiteStore.load_thread`:
`SELECT data FROM threads WHERE id = ? AND user_id = ?`, NotFound when no
row matches. -/
def loadThread (db : DB) (threadId : String) (ctx : RequestContext) :
    Except StoreError ThreadMetadata :=
  match db.threads.find? (fun r => decide (r.thread.id = threadId ∧ r.userId = ctx.userId)) with
  | some r => Except.ok r.thread
  | none => Except.error (StoreError.notFound ("Thread " ++ threadId ++ " not found"))

/-- `SQLiteStore.save_thread`: `INSERT OR REPLACE INTO threads` keyed on
the primary key `id`, recording the caller as `user_id`. -/
def saveThread (db : DB) (t : ThreadMetadata) (ctx : RequestContext) : DB :=
  { db with threads := db.threads.filter (fun r => !(r.thread.id == t.id)) ++ [⟨ctx.userId, t⟩] }

/-- The query of `load_threads`:
`SELECT data FROM threads WHERE user_id = ? ORDER BY created_at DESC`. -/
def userThreadsDesc (db : DB) (userId : String) : List ThreadMetadata :=
  (List.insertionSort threadRowDescLE (db.threads.filter (fun r => r.userId == userId))).map
    (fun r => r.thread)

/-- `SQLiteStore.load_threads`: the descending query above followed by the
shared cursor slicing. -/
def loadThreads (db : DB) (limit : Nat) (after : Option String) (ctx : RequestContext) :
    Page ThreadMetadata :=
  paginate (fun t => t.id) (userThreadsDesc db ctx.userId) after limit

/-- `SQLiteStore.delete_thread`:
`DELETE FROM threads WHERE id = ? AND user_id = ?` then
`DELETE FROM items WHERE thread_id = ? AND user_id = ?`, committed
together (modelled as one atomic state update). -/
def deleteThread (db : DB) (threadId : String) (ctx : RequestContext) : DB :=
  { db with
    threads := db.threads.filter (fun r => !(decide (r.thread.id = threadId ∧ r.userId = ctx.userId)))
    items := db.items.filter (fun r => !(decide (r.threadId = threadId ∧ r.userId = ctx.userId))) }

/-- The ownership check opening `load_thread_items`:
`SELECT 1 FROM threads WHERE id = ? AND user_id = ?`. -/
def threadOwned (db : DB) (threadId : String) (ctx : RequestContext) : Bool :=
  db.threads.any (fun r => decide (r.thread.id = threadId ∧ r.userId = ctx.userId))

/-- The item query of `load_thread_items`:
`SELECT data FROM items WHERE thread_id = ? ORDER BY created_at ASC`. -/
def threadItemsAsc (db : DB) (threadId : String) : List ThreadItem :=
  (List.insertionSort itemRowAscLE (db.items.filter (fun r => r.threadId == threadId))).map
    (fun r => r.item)

/-- `SQLiteStore.load_thread_items`: validate ownership (NotFound
otherwise), read the items ascending, reverse the whole list when
`order == "desc"`, then apply the shared cursor slicing. -/
def loadThreadItems (db : DB) (threadId : String) (after : Option String) (limit : Nat)
    (order : String) (ctx : RequestContext) : Except StoreError (Page ThreadItem) :=
  if threadOwned db threadId ctx then
    let itemsAsc := threadItemsAsc db threadId
    let items := if order = "desc" then itemsAsc.reverse else itemsAsc
    Except.ok (paginate (fun it => it.id) items after limit)
  else
    Except.error (StoreError.notFound "Thread not found")

/-- `SQLiteStore.add_thread_item`: plain `INSERT INTO items` with the
caller's user id (primary-key uniqueness of item ids is carried as a
hypothesis where theorems need it). -/
def addThreadItem (db : DB) (threadId : String) (item : ThreadItem) (ctx : RequestContext) : DB :=
  { db with items := db.items ++ [⟨threadId, ctx.userId, item⟩] }

/-- `SQLiteStore.save_item`: `INSERT OR REPLACE INTO items` keyed on the
primary key `id`. -/
def saveItem (db : DB) (threadId : String) (item : ThreadItem) (ctx : RequestContext) : DB :=
  { db with items := db.items.filter (fun r => !(r.item.id == item.id)) ++ [⟨threadId, ctx.userId, item⟩] }

/-- `SQLiteStore.load_item`:
`SELECT data FROM items WHERE id = ? AND thread_id = ?` — note that, as in
the source, the requesting user (`ctx`) is not consulted. -/
def loadItem (db : DB) (threadId itemId : String) (ctx : RequestContext) :
    Except StoreError ThreadItem :=
  match db.items.find? (fun r => decide (r.item.id = itemId ∧ r.threadId = threadId)) with
  | some r => Except.ok r.item
  | none => Except.error (StoreError.notFound ("Item " ++ itemId ++ " not found"))

/-- `SQLiteStore.delete_thread_item`:
`DELETE FROM items WHERE id = ? AND thread_id = ?` (no user filter). -/
def deleteThreadItem (db : DB) (threadId itemId : String) (ctx : RequestContext) : DB :=
  { db with items := db.items.filter (fun r => !(decide (r.item.id = itemId ∧ r.threadId = threadId))) }

/-- `SQLiteStore.save_attachment`: `INSERT OR REPLACE INTO attachments`
keyed on `id`, recording the caller as `user_id`. -/
def saveAttachment (db : DB) (a : Attachment) (ctx : RequestContext) : DB :=
  { db with attachments := db.attachments.filter (fun r => !(r.attachment.id == a.id)) ++ [⟨ctx.userId, a⟩] }

/-- `SQLiteStore.load_attachment`:
`SELECT data FROM attachments WHERE id = ?` — note that, as in the source,
the requesting user (`ctx`) is not consulted. -/
def loadAttachment (db : DB) (attachmentId : String) (ctx : RequestContext) :
    Except StoreError Attachment :=
  match db.attachments.find? (fun r => r.attachment.id == attachmentId) with
  | some r => Except.ok r.attachment
  | none => Except.error (StoreError.notFound ("Attachment " ++ attachmentId ++ " not found"))

/-- `SQLiteStore.delete_attachment`:
`DELETE FROM attachments WHERE id = ?` (no user filter). -/
def deleteAttachment (db : DB) (attachmentId : String) (ctx : RequestContext) : DB :=
  { db with attachments := db.attachments.filter (fun r => !(r.attachment.id == attachmentId)) }

/-- Python truthiness of the optional `last_response_id` string:
`if last_response_id:` is false for both `None` and `""`. -/
def truthy (s : Option String) : Bool :=
  match s with
  | none => false
  | some v => !(v == "")

/-- The per-turn `inference_options` carried on a user message
(`model` and `tool_choice.id`). -/
structure UserMessageInferenceOptions where
  model : Option String
  toolChoice : Option String
deriving DecidableEq

/-- The optional new user message handed to `respond`: the thread item it
persists plus its inference options. -/
structure UserMessageItem where
  item : ThreadItem
  inferenceOptions : Option UserMessageInferenceOptions
deriving DecidableEq

/-- The full-context branch of `respond` (server.py lines 141-146):
`load_thread_items(thread.id, None, 15, "desc", context)` followed by
`list(reversed(items_page.data))`. -/
def fullContextInput (db : DB) (thread : ThreadMetadata) (ctx : RequestContext) :
    Except StoreError (List ThreadItem) :=
  (loadThreadItems db thread.id none 15 "desc" ctx).map (fun page => page.data.reverse)

/-- The input-mode selection of `respond` (server.py lines 131-146):
`if last_response_id and input_message:` send only the new message,
otherwise send the reversed last-15-descending window. -/
def selectAgentInput (db : DB) (thread : ThreadMetadata)
    (inputMessage : Option UserMessageItem) (ctx : RequestContext) :
    Except StoreError (List ThreadItem) :=
  if truthy (metaGet thread.metadata "last_response_id") then
    match inputMessage with
    | some msg => Except.ok [msg.item]
    | none => fullContextInput db thread ctx
  else fullContextInput db thread ctx

/-- `agents.ModelSettings` as used here: only the forced tool choice. -/
structure ModelSettings where
  toolChoice : Option String
deriving DecidableEq

/-- The mutable configuration of the shared module-level `Agent`:
its model string, its model settings and the `reset_tool_choice` flag. -/
structure AgentConfig where
  model : String
  modelSettings : ModelSettings
  resetToolChoice : Bool
deriving DecidableEq

/-- `my_agent` as constructed in src/app/agent.py: `model="gpt-5-mini"`,
default model settings (no forced tool choice), SDK-default
`reset_tool_choice=True`. -/
def myAgent : AgentConfig :=
  { model := "gpt-5-mini", modelSettings := { toolChoice := none }, resetToolChoice := true }

/-- Step 3 of `respond` (server.py lines 148-155): mutate the shared
agent with the message's per-turn overrides, when present. -/
def applyInferenceOverrides (cfg : AgentConfig) (inputMessage : Option UserMessageItem) :
    AgentConfig :=
  match inputMessage with
  | none => cfg
  | some msg =>
    match msg.inferenceOptions with
    | none => cfg
    | some opts =>
      let cfg1 :=
        match opts.model with
        | some m => { cfg with model := m }
        | none => cfg
      match opts.toolChoice with
      | some tc => { cfg1 with modelSettings := { toolChoice := some tc } }
      | none => cfg1

/-- Server.py lines 176-178, run after the turn's stream finishes:
`my_agent.model_settings.tool_choice = None; my_agent.reset_tool_choice = True`.
The model field is left as-is. -/
def resetAfterTurn (cfg : AgentConfig) : AgentConfig :=
  { cfg with modelSettings := { toolChoice := none }, resetToolChoice := true }

/-- The agent configuration a turn actually runs with (after step 3). -/
def turnConfigUsed (cfg : AgentConfig) (inputMessage : Option UserMessageItem) : AgentConfig :=
  applyInferenceOverrides cfg inputMessage

/-- The shared agent configuration left behind once a turn completes. -/
def configAfterTurn (cfg : AgentConfig) (inputMessage : Option UserMessageItem) : AgentConfig :=
  resetAfterTurn (applyInferenceOverrides cfg inputMessage)

/-- Observable outcome of `_generate_thread_title`: what propagates to
the spawning turn, which title (if any) got persisted, and any log
entries the function emits. -/
structure TitleGenOutcome where
  result : Except String Unit
  savedTitle : Option String
  logs : List String
deriving DecidableEq

/-- `MyChatKitServer._generate_thread_title` (server.py lines 224-250),
abstracted over its two fallible effects: the upstream completion call
(returning the generated title) and the subsequent `save_thread`. The
whole body sits in a `try` whose handler is a bare `except: pass`, so
every failure yields a normal return and no log entry is ever written. -/
def generateThreadTitle (upstream : Except String String) (save : String → Except String Unit) :
    TitleGenOutcome :=
  match upstream with
  | Except.error _ => { result := Except.ok (), savedTitle := none, logs := [] }
  | Except.ok title =>
    match save title with
    | Except.error _ => { result := Except.ok (), savedTitle := none, logs := [] }
    | Except.ok _ => { result := Except.ok (), savedTitle := some title, logs := [] }

/-- The cursor whose `startIdx` resolves to position `s`: no cursor for
`s = 0`, the id of the element at position `s - 1` otherwise. -/
def cursorAt {α : Type} (getId : α → String) (xs : List α) : Nat → Option String
  | 0 => none
  | s + 1 => (xs.get? s).map getId

/-- The client pagination protocol over a fixed list: request a page,
and while `has_more` holds keep requesting with the returned cursor;
`fuel` bounds the number of requests. -/
def collectFromCursor {α : Type} (getId : α → String) (xs : List α) (limit : Nat) :
    Nat → Option String → List α
  | 0, _ => []
  | fuel + 1, after =>
    let p := paginate getId xs after limit
    if p.hasMore then p.data ++ collectFromCursor getId xs limit fuel p.after else p.data

/-- The same pagination protocol run against `load_thread_items`. -/
def collectItemPages (db : DB) (threadId : String) (limit : Nat) (order : String)
    (ctx : RequestContext) : Nat → Option String → List ThreadItem
  | 0, _ => []
  | fuel + 1, after =>
    match loadThreadItems db threadId after limit order ctx with
    | Except.error _ => []
    | Except.ok p =>
      if p.hasMore then p.data ++ collectItemPages db threadId limit order ctx fuel p.after
      else p.data

/-! Concrete example data used to instantiate hypotheses and to evaluate
the embedded operations at specific inputs. -/

/-- Request context of user alice. -/
def ctxAlice : RequestContext := ⟨"alice"⟩

/-- Request context of user bob. -/
def ctxBob : RequestContext := ⟨"bob"⟩

/-- An item of alice's thread th_1, created at time 1. -/
def exItem1 : ThreadItem := ⟨"it_1", 1, "hello"⟩

/-- An item of alice's thread th_1, created at time 2. -/
def exItem2 : ThreadItem := ⟨"it_2", 2, "hi, how can I help?"⟩

/-- An item of alice's thread th_1, created at time 3. -/
def exItem3 : ThreadItem := ⟨"it_3", 3, "what is the weather in Tokyo?"⟩

/-- Alice's thread th_1; its metadata carries a resumption token. -/
def exThread1 : ThreadMetadata :=
  ⟨"th_1", 10, some "Weather Chat", [("last_response_id", "resp_9")]⟩

/-- Alice's thread th_2 (no resumption token, no items). -/
def exThread2 : ThreadMetadata := ⟨"th_2", 20, none, []⟩

/-- Alice's thread th_3 (no resumption token, no items). -/
def exThread3 : ThreadMetadata := ⟨"th_3", 30, none, []⟩

/-- Bob's own thread. -/
def exThreadB : ThreadMetadata := ⟨"th_b", 15, none, []⟩

/-- An attachment uploaded by alice. -/
def exAttachment1 : Attachment := ⟨"att_1", "png-bytes"⟩

/-- A database state: alice owns th_1 (holding three items), th_2 and
th_3; bob owns th_b; alice saved attachment att_1. -/
def exDB : DB :=
  { threads := [⟨"alice", exThread1⟩, ⟨"alice", exThread2⟩, ⟨"alice", exThread3⟩,
                ⟨"bob", exThreadB⟩]
    items := [⟨"th_1", "alice", exItem1⟩, ⟨"th_1", "alice", exItem2⟩,
              ⟨"th_1", "alice", exItem3⟩]
    attachments := [⟨"alice", exAttachment1⟩] }

/-- A user message carrying a per-turn model override. -/
def exOverrideMsg : UserMessageItem :=
  ⟨⟨"im_1", 5, "answer with the other model"⟩, some ⟨some "gpt-4o", none⟩⟩

/-- A plain user message without inference options. -/
def exMsg : UserMessageItem := ⟨⟨"im_2", 9, "hello again"⟩, none⟩

/-! Theorems. -/

/-- Claim C1 (code evaluation): tenant isolation does hold at
`load_thread`, but not at every store entry point: with thread th_1,
item it_1 and attachment att_1 all belonging to alice, a request context
for bob gets NotFound from `load_thread`, yet `load_item` and
`load_attachment` return alice's data to bob, because their SQL queries
filter only on id / thread_id and never on user_id. -/
theorem tenant_isolation_breach :
    loadThread exDB "th_1" ctxBob
        = Except.error (StoreError.notFound "Thread th_1 not found")
  ∧ loadItem exDB "th_1" "it_1" ctxBob = Except.ok exItem1
  ∧ loadAttachment exDB "att_1" ctxBob = Except.ok exAttachment1 := by
  exact ⟨by decide, by decide, by decide⟩

/-- Claim C2 (code evaluation): after a turn whose input message carries
a model override, the shared agent's tool choice is reset but the model
is not: the next turn without overrides still runs with the overridden
model, so the post-turn configuration differs from the pre-turn one. -/
theorem model_override_persists_after_turn :
    myAgent.model = "gpt-5-mini"
  ∧ turnConfigUsed myAgent (some exOverrideMsg)
      = { model := "gpt-4o", modelSettings := { toolChoice := none }, resetToolChoice := true }
  ∧ configAfterTurn myAgent (some exOverrideMsg)
      = { model := "gpt-4o", modelSettings := { toolChoice := none }, resetToolChoice := true }
  ∧ (turnConfigUsed (configAfterTurn myAgent (some exOverrideMsg)) none).model = "gpt-4o"
  ∧ turnConfigUsed (configAfterTurn myAgent (some exOverrideMsg)) none
      ≠ turnConfigUsed myAgent none := by
  exact ⟨rfl, by decide, by decide, rfl, by decide⟩

/-- Claim C8, as amended: every failure inside the background
title-generation body (upstream completion call or the subsequent thread
save) is caught by the bare `except: pass` and silently discarded —
nothing propagates to the spawning turn — but no log entry is written. -/
theorem title_failure_swallowed (upstream : Except String String)
    (save : String → Except String Unit) :
    (generateThreadTitle upstream save).result = Except.ok ()
  ∧ (generateThreadTitle upstream save).logs = [] := by
  cases upstream with
  | error e => exact ⟨rfl, rfl⟩
  | ok title =>
    cases h : save title with
    | error e => simp [generateThreadTitle, h]
    | ok u => simp [generateThreadTitle, h]

/-- Claim C8 (counterexample to "logged"): with a failing upstream call
the failure is swallowed, but the handler (a bare `pass`) emits no log
entry, contradicting the claim that such failures are logged. -/
theorem title_failure_unlogged_cex :
    (generateThreadTitle (Except.error "upstream unavailable") (fun _ => Except.ok ())).result
        = Except.ok ()
  ∧ (generateThreadTitle (Except.error "upstream unavailable") (fun _ => Except.ok ())).logs
        = [] := by
  exact ⟨rfl, rfl⟩

/-- Claim C9: `save_thread` is an unconditional upsert recording the
caller as owner. If a thread id is stored as belonging to user A, a
save by user B with that id succeeds, after which `load_thread` of the
id succeeds for B and raises NotFound for A. -/
theorem save_thread_last_writer_wins (db : DB) (t : ThreadMetadata) (A B : RequestContext)
    (hAB : A.userId ≠ B.userId) (t0 : ThreadMetadata)
    (hprev : loadThread db t.id A = Except.ok t0) :
    loadThread (saveThread db t B) t.id B = Except.ok t
  ∧ loadThread (saveThread db t B) t.id A
      = Except.error (StoreError.notFound ("Thread " ++ t.id ++ " not found")) := by
  have hnone : ∀ (u : String),
      (db.threads.filter (fun r => !(r.thread.id == t.id))).find?
        (fun r => decide (r.thread.id = t.id ∧ r.userId = u)) = none := by
    intro u
    rw [List.find?_eq_none]
    intro r hr
    rw [List.mem_filter] at hr
    simp only [Bool.not_eq_true', beq_eq_false_iff_ne] at hr
    simp [hr.2]
  constructor
  · simp only [loadThread, saveThread, List.find?_append, hnone, Option.none_or]
    simp [List.find?_cons]
  · simp only [loadThread, saveThread, List.find?_append, hnone, Option.none_or]
    simp [List.find?_cons, Ne.symm hAB]

/-- Witness for C9 at concrete inputs: bob saves a thread whose id is
stored as alice's; afterwards bob loads it and alice gets NotFound. -/
theorem save_thread_last_writer_wins_witness :
    ctxAlice.userId ≠ ctxBob.userId
  ∧ loadThread exDB exThread1.id ctxAlice = Except.ok exThread1
  ∧ (loadThread (saveThread exDB exThread1 ctxBob) exThread1.id ctxBob = Except.ok exThread1
     ∧ loadThread (saveThread exDB exThread1 ctxBob) exThread1.id ctxAlice
         = Except.error (StoreError.notFound ("Thread " ++ exThread1.id ++ " not found"))) :=
  ⟨by decide, by decide,
    save_thread_last_writer_wins exDB exThread1 ctxAlice ctxBob (by decide) exThread1 (by decide)⟩

/-- Claim C7: `delete_thread` is idempotent (a second deletion of the
same id is a no-op), deleting an absent thread id with no item rows
leaves the store unchanged, and — whenever the rows of that thread id
belong to the requesting user, as every upstream-validated flow
guarantees — deletion leaves neither a thread row nor any item row for
that id. -/
theorem delete_thread_idempotent (db : DB) (tid : String) (ctx : RequestContext) :
    deleteThread (deleteThread db tid ctx) tid ctx = deleteThread db tid ctx
  ∧ ((∀ r ∈ db.threads, r.thread.id ≠ tid) ∧ (∀ r ∈ db.items, r.threadId ≠ tid) →
       deleteThread db tid ctx = db)
  ∧ ((∀ r ∈ db.threads, r.thread.id = tid → r.userId = ctx.userId) ∧
       (∀ r ∈ db.items, r.threadId = tid → r.userId = ctx.userId) →
       (∀ r ∈ (deleteThread db tid ctx).threads, r.thread.id ≠ tid)
     ∧ (∀ r ∈ (deleteThread db tid ctx).items, r.threadId ≠ tid)) := by
  obtain ⟨ths, its, atts⟩ := db
  refine ⟨?_, ?_, ?_⟩
  · simp [deleteThread, List.filter_filter, Bool.and_self]
  · rintro ⟨h1, h2⟩
    simp only [deleteThread, DB.mk.injEq]
    refine ⟨?_, ?_, trivial⟩
    · rw [List.filter_eq_self]
      intro r hr
      simp [h1 r hr]
    · rw [List.filter_eq_self]
      intro r hr
      simp [h2 r hr]
  · rintro ⟨h1, h2⟩
    constructor
    · intro r hr
      simp only [deleteThread, List.mem_filter, Bool.not_eq_true',
        decide_eq_false_iff_not] at hr
      intro heq
      exact hr.2 ⟨heq, h1 r hr.1 heq⟩
    · intro r hr
      simp only [deleteThread, List.mem_filter, Bool.not_eq_true',
        decide_eq_false_iff_not] at hr
      intro heq
      exact hr.2 ⟨heq, h2 r hr.1 heq⟩

/-- Witness for C7: alice deletes her thread th_1 from the example
store; the hypotheses hold there and afterwards no thread row and no
item row for th_1 remains. -/
theorem delete_thread_idempotent_witness :
    (∀ r ∈ (deleteThread exDB "th_1" ctxAlice).threads, r.thread.id ≠ "th_1")
  ∧ (∀ r ∈ (deleteThread exDB "th_1" ctxAlice).items, r.threadId ≠ "th_1") :=
  (delete_thread_idempotent exDB "th_1" ctxAlice).2.2 ⟨by decide, by decide⟩

theorem firstMatchIdx_eq_none (a : String) (l : List String) (h : ∀ x ∈ l, x ≠ a) :
    firstMatchIdx a l = none := by
  induction l with
  | nil => rfl
  | cons x xs ih =>
    rw [firstMatchIdx, if_neg (h x (List.mem_cons_self x xs)),
      ih (fun y hy => h y (List.mem_cons_of_mem x hy))]
    rfl

theorem startIdx_eq_zero_of_not_mem (ids : List String) (a : String)
    (h : ∀ x ∈ ids, x ≠ a) : startIdx ids (some a) = 0 := by
  rw [startIdx]
  by_cases ha : a = ""
  · rw [if_pos ha]
  · rw [if_neg ha, firstMatchIdx_eq_none a ids h]

theorem paginate_startIdx_congr {α : Type} (getId : α → String) (xs : List α)
    (a1 a2 : Option String) (limit : Nat)
    (h : startIdx (xs.map getId) a1 = startIdx (xs.map getId) a2) :
    paginate getId xs a1 limit = paginate getId xs a2 limit := by
  unfold paginate
  rw [h]

theorem paginate_stale_cursor {α : Type} (getId : α → String) (xs : List α) (a : String)
    (limit : Nat) (h : ∀ x ∈ xs, getId x ≠ a) :
    paginate getId xs (some a) limit = paginate getId xs none limit := by
  apply paginate_startIdx_congr
  have hs : startIdx (xs.map getId) (some a) = 0 := by
    apply startIdx_eq_zero_of_not_mem
    intro y hy
    obtain ⟨x, hx, rfl⟩ := List.mem_map.mp hy
    exact h x hx
  exact hs

theorem paginate_data {α : Type} (getId : α → String) (xs : List α) (after : Option String)
    (limit : Nat) :
    (paginate getId xs after limit).data
      = (xs.drop (startIdx (xs.map getId) after)).take limit := rfl

theorem paginate_hasMore {α : Type} (getId : α → String) (xs : List α) (after : Option String)
    (limit : Nat) :
    (paginate getId xs after limit).hasMore
      = decide (startIdx (xs.map getId) after + limit < xs.length) := rfl

theorem paginate_after_pos {α : Type} (getId : α → String) (xs : List α) (after : Option String)
    (limit : Nat) (h : startIdx (xs.map getId) after + limit < xs.length) :
    (paginate getId xs after limit).after
      = ((paginate getId xs after limit).data.getLast?).map getId := by
  simp [paginate, h]

theorem paginate_after_neg {α : Type} (getId : α → String) (xs : List α) (after : Option String)
    (limit : Nat) (h : ¬ (startIdx (xs.map getId) after + limit < xs.length)) :
    (paginate getId xs after limit).after = none := by
  simp [paginate, h]

theorem userThreadsDesc_sorted (db : DB) (u : String) :
    List.Sorted (fun a b : ThreadMetadata => b.createdAt ≤ a.createdAt) (userThreadsDesc db u) :=
  List.Pairwise.map _ (fun _ _ hab => hab) (List.sorted_insertionSort threadRowDescLE _)

theorem userThreadsDesc_mem (db : DB) (u : String) (t : ThreadMetadata)
    (ht : t ∈ userThreadsDesc db u) : ∃ r ∈ db.threads, r.userId = u ∧ r.thread = t := by
  obtain ⟨r, hr, rfl⟩ := List.mem_map.mp ht
  have hr2 : r ∈ db.threads.filter (fun r => r.userId == u) :=
    (List.perm_insertionSort threadRowDescLE _).mem_iff.mp hr
  rw [List.mem_filter] at hr2
  exact ⟨r, hr2.1, by simpa using hr2.2, rfl⟩

theorem threadItemsAsc_sorted (db : DB) (tid : String) :
    List.Sorted (fun a b : ThreadItem => a.createdAt ≤ b.createdAt) (threadItemsAsc db tid) :=
  List.Pairwise.map _ (fun _ _ hab => hab) (List.sorted_insertionSort itemRowAscLE _)

theorem threadItemsAsc_perm (db : DB) (tid : String) :
    (threadItemsAsc db tid).Perm
      ((db.items.filter (fun r => r.threadId == tid)).map (fun r => r.item)) := by
  unfold threadItemsAsc
  exact List.Perm.map _ (List.perm_insertionSort itemRowAscLE _)

/-- Claim C5: `load_threads` returns at most `limit` threads, all of
them rows of the requesting user, ordered by creation time descending;
`has_more` is true exactly when threads remain beyond the returned page,
in which case the page's cursor is the id of the last returned thread
(and the page is nonempty); otherwise the cursor is null. -/
theorem load_threads_page_spec (db : DB) (limit : Nat) (after : Option String)
    (ctx : RequestContext) (hl : 1 ≤ limit) :
    (loadThreads db limit after ctx).data.length ≤ limit
  ∧ (loadThreads db limit after ctx).data
      = ((userThreadsDesc db ctx.userId).drop
          (startIdx ((userThreadsDesc db ctx.userId).map (fun t => t.id)) after)).take limit
  ∧ List.Sorted (fun a b : ThreadMetadata => b.createdAt ≤ a.createdAt)
      (loadThreads db limit after ctx).data
  ∧ (∀ t ∈ (loadThreads db limit after ctx).data,
       ∃ r ∈ db.threads, r.userId = ctx.userId ∧ r.thread = t)
  ∧ ((loadThreads db limit after ctx).hasMore = true ↔
       (userThreadsDesc db ctx.userId).drop
         (startIdx ((userThreadsDesc db ctx.userId).map (fun t => t.id)) after + limit) ≠ [])
  ∧ ((loadThreads db limit after ctx).hasMore = true →
       (loadThreads db limit after ctx).data ≠ []
     ∧ (loadThreads db limit after ctx).after
         = ((loadThreads db limit after ctx).data.getLast?).map (fun t => t.id))
  ∧ ((loadThreads db limit after ctx).hasMore = false →
       (loadThreads db limit after ctx).after = none) := by
  set ts := userThreadsDesc db ctx.userId with hts
  set s := startIdx (ts.map (fun t => t.id)) after with hs
  have hsub : ((ts.drop s).take limit).Sublist ts :=
    (List.take_sublist _ _).trans (List.drop_sublist _ _)
  refine ⟨?_, rfl, ?_, ?_, ?_, ?_, ?_⟩
  · show ((ts.drop s).take limit).length ≤ limit
    rw [List.length_take]
    exact min_le_left _ _
  · exact List.Pairwise.sublist hsub (userThreadsDesc_sorted db ctx.userId)
  · intro t ht
    exact userThreadsDesc_mem db ctx.userId t (hsub.subset ht)
  · show decide (s + limit < ts.length) = true ↔ ts.drop (s + limit) ≠ []
    rw [decide_eq_true_eq, ne_eq, List.drop_eq_nil_iff]
    omega
  · intro hm
    have hP : s + limit < ts.length := of_decide_eq_true hm
    have hlen : ((ts.drop s).take limit).length = limit ⊓ (ts.length - s) := by
      rw [List.length_take, List.length_drop]
    have hpos : 0 < ((ts.drop s).take limit).length := by
      rw [hlen, lt_min_iff]
      omega
    refine ⟨?_, paginate_after_pos _ _ _ _ hP⟩
    intro hnil
    have hnil2 : (ts.drop s).take limit = [] := hnil
    rw [hnil2] at hpos
    simp at hpos
  · intro hm
    have hP : ¬ (s + limit < ts.length) := by
      intro hP
      have : (loadThreads db limit after ctx).hasMore = true := decide_eq_true hP
      rw [hm] at this
      exact Bool.false_ne_true this
    exact paginate_after_neg _ _ _ _ hP

/-- Claim C6: `load_thread_items` raises NotFound exactly when the
thread is absent or owned by another user; otherwise it pages — with the
same `paginate` cursor semantics as thread listing — over the
ascending-creation-time item list, reversed as a whole when descending
order is requested. The item list is sorted ascending by creation time
and is a permutation of the thread's item rows. -/
theorem load_thread_items_spec (db : DB) (tid : String) (after : Option String)
    (limit : Nat) (order : String) (ctx : RequestContext) :
    (loadThreadItems db tid after limit order ctx
        = Except.error (StoreError.notFound "Thread not found")
      ↔ threadOwned db tid ctx = false)
  ∧ (threadOwned db tid ctx = true →
      loadThreadItems db tid after limit order ctx
        = Except.ok (paginate (fun it => it.id)
            (if order = "desc" then (threadItemsAsc db tid).reverse else threadItemsAsc db tid)
            after limit))
  ∧ List.Sorted (fun a b : ThreadItem => a.createdAt ≤ b.createdAt) (threadItemsAsc db tid)
  ∧ (threadItemsAsc db tid).Perm
      ((db.items.filter (fun r => r.threadId == tid)).map (fun r => r.item)) := by
  refine ⟨?_, ?_, threadItemsAsc_sorted db tid, threadItemsAsc_perm db tid⟩
  · cases hb : threadOwned db tid ctx with
    | true => simp [loadThreadItems, hb]
    | false => simp [loadThreadItems, hb]
  · intro hb
    simp [loadThreadItems, hb]

/-- Claim C10: a cursor matching no thread id (for `load_threads`) or
no item id of the thread (for `load_thread_items`, either order) is
silently ignored: the call returns exactly the first page, as if no
cursor had been passed, and raises no error beyond the usual ownership
check. -/
theorem stale_cursor_first_page (db : DB) (limit : Nat) (ctx : RequestContext)
    (tid : String) (a : String)
    (h1 : ∀ t ∈ userThreadsDesc db ctx.userId, t.id ≠ a)
    (h2 : ∀ it ∈ threadItemsAsc db tid, it.id ≠ a) :
    loadThreads db limit (some a) ctx = loadThreads db limit none ctx
  ∧ ∀ order, loadThreadItems db tid (some a) limit order ctx
      = loadThreadItems db tid none limit order ctx := by
  constructor
  · exact paginate_stale_cursor _ _ a limit h1
  · intro order
    cases hb : threadOwned db tid ctx with
    | false => simp [loadThreadItems, hb]
    | true =>
      simp only [loadThreadItems, hb, if_true]
      congr 1
      by_cases hd : order = "desc"
      · simp only [if_pos hd]
        apply paginate_stale_cursor
        intro x hx
        exact h2 x (List.mem_reverse.mp hx)
      · simp only [if_neg hd]
        exact paginate_stale_cursor _ _ a limit h2

theorem reverse_take_reverse {α : Type} (l : List α) (n : Nat) :
    (l.reverse.take n).reverse = l.drop (l.length - n) := by
  rw [List.reverse_take, List.reverse_reverse, List.length_reverse]

/-- Claim C4: `respond` uses incremental input — only the new user
message — exactly when the thread metadata carries a (truthy) resumption
token and a new message is present; in every other case it sends the
last 15 items of the thread, i.e. the 15-item window loaded newest-first
and reversed into chronological order, which equals dropping all but the
last 15 of the ascending item list. -/
theorem respond_input_mode (db : DB) (thread : ThreadMetadata)
    (inputMessage : Option UserMessageItem) (ctx : RequestContext)
    (howned : threadOwned db thread.id ctx = true) :
    (∀ m, inputMessage = some m →
       truthy (metaGet thread.metadata "last_response_id") = true →
       selectAgentInput db thread inputMessage ctx = Except.ok [m.item])
  ∧ ((truthy (metaGet thread.metadata "last_response_id") = false ∨ inputMessage = none) →
       selectAgentInput db thread inputMessage ctx
         = Except.ok ((threadItemsAsc db thread.id).drop
             ((threadItemsAsc db thread.id).length - 15))) := by
  have hfull : fullContextInput db thread ctx
      = Except.ok ((threadItemsAsc db thread.id).drop
          ((threadItemsAsc db thread.id).length - 15)) := by
    rw [fullContextInput]
    have hload : loadThreadItems db thread.id none 15 "desc" ctx
        = Except.ok (paginate (fun it => it.id) (threadItemsAsc db thread.id).reverse none 15) := by
      simp [loadThreadItems, howned]
    rw [hload]
    show Except.ok ((paginate (fun it => it.id) (threadItemsAsc db thread.id).reverse none 15).data.reverse) = _
    rw [paginate_data]
    show Except.ok (((threadItemsAsc db thread.id).reverse.drop 0).take 15).reverse = _
    rw [List.drop_zero, reverse_take_reverse]
  constructor
  · rintro m rfl htr
    simp [selectAgentInput, htr]
  · rintro (htr | rfl)
    · simp [selectAgentInput, htr, hfull]
    · cases htr : truthy (metaGet thread.metadata "last_response_id") with
      | true => simp [selectAgentInput, htr, hfull]
      | false => simp [selectAgentInput, htr, hfull]

theorem firstMatchIdx_lt_length (a : String) :
    ∀ (l : List String) (i : Nat), firstMatchIdx a l = some i → i < l.length := by
  intro l
  induction l with
  | nil => simp [firstMatchIdx]
  | cons x xs ih =>
    intro i h
    rw [firstMatchIdx] at h
    split at h
    · cases h
      simp
    · obtain ⟨j, hj, rfl⟩ := Option.map_eq_some'.mp h
      have hlt := ih j hj
      simp only [List.length_cons]
      omega

theorem startIdx_le_length (ids : List String) (after : Option String) :
    startIdx ids after ≤ ids.length := by
  match after with
  | none => exact Nat.zero_le _
  | some a =>
    rw [startIdx]
    split
    · exact Nat.zero_le _
    · cases hfm : firstMatchIdx a ids with
      | none => exact Nat.zero_le _
      | some i => exact firstMatchIdx_lt_length a ids i hfm

theorem firstMatchIdx_of_get (ids : List String) (hnd : ids.Nodup) :
    ∀ (i : Nat) (h : i < ids.length), firstMatchIdx (ids.get ⟨i, h⟩) ids = some i := by
  induction ids with
  | nil => intro i h; simp at h
  | cons x xs ih =>
    intro i h
    match i with
    | 0 =>
      have h0 : (x :: xs).get ⟨0, h⟩ = x := rfl
      rw [firstMatchIdx, h0, if_pos rfl]
    | j + 1 =>
      have hj : j < xs.length := by simpa using h
      have hget : (x :: xs).get ⟨j + 1, h⟩ = xs.get ⟨j, hj⟩ := rfl
      rw [hget, firstMatchIdx]
      have hx : x ≠ xs.get ⟨j, hj⟩ := by
        intro heq
        have hmem : xs.get ⟨j, hj⟩ ∈ xs := List.get_mem xs j hj
        rw [← heq] at hmem
        exact (List.nodup_cons.mp hnd).1 hmem
      rw [if_neg hx, ih (List.nodup_cons.mp hnd).2 j hj]
      rfl

theorem firstMatchIdx_of_mem (a : String) (l : List String) (h : a ∈ l) :
    ∃ i, firstMatchIdx a l = some i := by
  induction l with
  | nil => simp at h
  | cons x xs ih =>
    rw [firstMatchIdx]
    by_cases hx : x = a
    · rw [if_pos hx]
      exact ⟨0, rfl⟩
    · rw [if_neg hx]
      have hmem : a ∈ xs := by
        cases List.mem_cons.mp h with
        | inl h2 => exact absurd h2.symm hx
        | inr h2 => exact h2
      obtain ⟨i, hi⟩ := ih hmem
      exact ⟨i + 1, by rw [hi]; rfl⟩

theorem firstMatchIdx_append_of_some (a : String) (l1 l2 : List String) (i : Nat)
    (h : firstMatchIdx a l1 = some i) : firstMatchIdx a (l1 ++ l2) = some i := by
  induction l1 generalizing i with
  | nil => simp [firstMatchIdx] at h
  | cons x xs ih =>
    rw [List.cons_append, firstMatchIdx]
    rw [firstMatchIdx] at h
    by_cases hx : x = a
    · rw [if_pos hx] at h ⊢
      exact h
    · rw [if_neg hx] at h ⊢
      obtain ⟨j, hj, rfl⟩ := Option.map_eq_some'.mp h
      rw [ih j hj]
      rfl

theorem startIdx_cursorAt {α : Type} (getId : α → String) (xs : List α)
    (hnd : (xs.map getId).Nodup) (hne : "" ∉ xs.map getId) (s : Nat) (hs : s ≤ xs.length) :
    startIdx (xs.map getId) (cursorAt getId xs s) = s := by
  match s with
  | 0 => rfl
  | k + 1 =>
    have hk : k < xs.length := hs
    have hget : xs.get? k = some (xs.get ⟨k, hk⟩) := List.get?_eq_get hk
    rw [cursorAt, hget, Option.map_some']
    rw [startIdx]
    have hmem : getId (xs.get ⟨k, hk⟩) ∈ xs.map getId :=
      List.mem_map_of_mem getId (List.get_mem xs k hk)
    have hne2 : getId (xs.get ⟨k, hk⟩) ≠ "" := fun heq => hne (heq ▸ hmem)
    rw [if_neg hne2]
    have hk2 : k < (xs.map getId).length := by simpa using hk
    have hgm : getId (xs.get ⟨k, hk⟩) = (xs.map getId).get ⟨k, hk2⟩ := by
      simp
    rw [hgm, firstMatchIdx_of_get (xs.map getId) hnd k hk2]

theorem collectFromCursor_drop {α : Type} (getId : α → String) (xs : List α) (l0 : Nat)
    (hnd : (xs.map getId).Nodup) (hne : "" ∉ xs.map getId) :
    ∀ (fuel s : Nat), s ≤ xs.length → xs.length ≤ s + fuel * (l0 + 1) →
      collectFromCursor getId xs (l0 + 1) fuel (cursorAt getId xs s) = xs.drop s := by
  intro fuel
  induction fuel with
  | zero =>
    intro s hs hlen
    simp only [Nat.zero_mul, Nat.add_zero] at hlen
    rw [collectFromCursor]
    exact (List.drop_eq_nil_iff.mpr hlen).symm
  | succ fuel ih =>
    intro s hs hlen
    have hstart : startIdx (xs.map getId) (cursorAt getId xs s) = s :=
      startIdx_cursorAt getId xs hnd hne s hs
    by_cases hm : s + (l0 + 1) < xs.length
    · have hdata : (paginate getId xs (cursorAt getId xs s) (l0 + 1)).data
          = (xs.drop s).take (l0 + 1) := by
        rw [paginate_data, hstart]
      have hHM : (paginate getId xs (cursorAt getId xs s) (l0 + 1)).hasMore = true := by
        rw [paginate_hasMore, hstart]
        exact decide_eq_true hm
      have hslen : ((xs.drop s).take (l0 + 1)).length = l0 + 1 := by
        rw [List.length_take, List.length_drop]
        exact min_eq_left (by omega)
      have hsl : s + l0 < xs.length := by omega
      have hafter : (paginate getId xs (cursorAt getId xs s) (l0 + 1)).after
          = cursorAt getId xs (s + (l0 + 1)) := by
        rw [paginate_after_pos getId xs _ _ (by rw [hstart]; exact hm)]
        rw [hdata, List.getLast?_eq_getElem?, hslen]
        have hidx : l0 + 1 - 1 = l0 := rfl
        rw [hidx, List.getElem?_take, if_pos (by omega), List.getElem?_drop,
          List.getElem?_eq_getElem hsl, Option.map_some']
        have hcur : cursorAt getId xs (s + (l0 + 1)) = (xs.get? (s + l0)).map getId := rfl
        rw [hcur, List.get?_eq_getElem?, List.getElem?_eq_getElem hsl, Option.map_some']
      have hlen2 : xs.length ≤ s + (fuel * (l0 + 1) + (l0 + 1)) := by
        rw [Nat.succ_mul] at hlen
        omega
      simp only [collectFromCursor]
      rw [hHM]
      simp only [if_true]
      rw [hdata, hafter, ih (s + (l0 + 1)) (by omega) (by omega)]
      rw [← List.drop_drop, List.take_append_drop]
    · have hHM : (paginate getId xs (cursorAt getId xs s) (l0 + 1)).hasMore = false := by
        rw [paginate_hasMore, hstart]
        exact decide_eq_false hm
      simp only [collectFromCursor]
      rw [hHM]
      simp only [Bool.false_eq_true, if_false]
      rw [paginate_data, hstart]
      apply List.take_of_length_le
      rw [List.length_drop]
      omega

theorem loadThreadItems_ok (db : DB) (tid : String) (after : Option String) (limit : Nat)
    (order : String) (ctx : RequestContext) (howned : threadOwned db tid ctx = true) :
    loadThreadItems db tid after limit order ctx
      = Except.ok (paginate (fun it => it.id)
          (if order = "desc" then (threadItemsAsc db tid).reverse else threadItemsAsc db tid)
          after limit) := by
  simp [loadThreadItems, howned]

theorem collectItemPages_eq_collectFromCursor (db : DB) (tid : String) (limit : Nat)
    (order : String) (ctx : RequestContext) (howned : threadOwned db tid ctx = true) :
    ∀ (fuel : Nat) (after : Option String),
      collectItemPages db tid limit order ctx fuel after
        = collectFromCursor (fun it => it.id)
            (if order = "desc" then (threadItemsAsc db tid).reverse else threadItemsAsc db tid)
            limit fuel after := by
  intro fuel
  induction fuel with
  | zero => intro after; rfl
  | succ fuel ih =>
    intro after
    rw [collectItemPages, loadThreadItems_ok db tid after limit order ctx howned]
    simp only [collectFromCursor]
    simp only [ih]

/-- Claim C3: pagination over a thread's items is complete and stable.
Repeatedly calling `load_thread_items` with the previous page's cursor
until `has_more` is false yields exactly the thread's items in the
requested order (ascending or descending), with no duplicates or
omissions; and for items appended after the current list, any page whose
cursor position lies in the current list is unchanged except that a page
reaching past the end may extend with the new items — a fully interior
page (`has_more` true) is exactly identical, so already-issued pages
never change retroactively. -/
theorem load_thread_items_pagination (db : DB) (tid : String) (ctx : RequestContext)
    (limit : Nat) (howned : threadOwned db tid ctx = true)
    (hnd : ((threadItemsAsc db tid).map (fun it => it.id)).Nodup)
    (hne : "" ∉ (threadItemsAsc db tid).map (fun it => it.id))
    (hl : 1 ≤ limit) :
    collectItemPages db tid limit "asc" ctx (threadItemsAsc db tid).length none
        = threadItemsAsc db tid
  ∧ collectItemPages db tid limit "desc" ctx (threadItemsAsc db tid).length none
        = (threadItemsAsc db tid).reverse
  ∧ ∀ (ys : List ThreadItem) (after : Option String),
      (after = none ∨ ∃ a, after = some a ∧ a ∈ (threadItemsAsc db tid).map (fun it => it.id)) →
      (paginate (fun it => it.id) (threadItemsAsc db tid ++ ys) after limit).data
          = (paginate (fun it => it.id) (threadItemsAsc db tid) after limit).data
            ++ ys.take (limit - ((threadItemsAsc db tid).length
                - startIdx ((threadItemsAsc db tid).map (fun it => it.id)) after))
        ∧ ((paginate (fun it => it.id) (threadItemsAsc db tid) after limit).hasMore = true →
            (paginate (fun it => it.id) (threadItemsAsc db tid ++ ys) after limit).data
              = (paginate (fun it => it.id) (threadItemsAsc db tid) after limit).data) := by
  obtain ⟨l0, rfl⟩ : ∃ l0, limit = l0 + 1 := ⟨limit - 1, by omega⟩
  set xs := threadItemsAsc db tid with hxs
  have hmul : ∀ n : Nat, n ≤ 0 + n * (l0 + 1) := by
    intro n
    have h1 : n * 1 ≤ n * (l0 + 1) := Nat.mul_le_mul (le_refl n) (by omega)
    omega
  refine ⟨?_, ?_, ?_⟩
  · rw [collectItemPages_eq_collectFromCursor db tid (l0 + 1) "asc" ctx howned]
    rw [if_neg (by decide : ¬ ("asc" = "desc"))]
    have hmain := collectFromCursor_drop (fun it => it.id) xs l0 hnd hne xs.length 0
      (Nat.zero_le _) (hmul xs.length)
    rw [List.drop_zero] at hmain
    exact hmain
  · rw [collectItemPages_eq_collectFromCursor db tid (l0 + 1) "desc" ctx howned]
    rw [if_pos rfl]
    have hnd2 : (xs.reverse.map (fun it => it.id)).Nodup := by
      rw [List.map_reverse, List.nodup_reverse]
      exact hnd
    have hne2 : "" ∉ xs.reverse.map (fun it => it.id) := by
      rw [List.map_reverse, List.mem_reverse]
      exact hne
    have hmain := collectFromCursor_drop (fun it => it.id) xs.reverse l0 hnd2 hne2
      xs.reverse.length 0 (Nat.zero_le _) (hmul xs.reverse.length)
    rw [List.drop_zero, List.length_reverse] at hmain
    exact hmain
  · intro ys after hvalid
    have hsame : startIdx ((xs ++ ys).map (fun it => it.id)) after
        = startIdx (xs.map (fun it => it.id)) after := by
      cases hvalid with
      | inl h =>
        subst h
        rfl
      | inr h =>
        obtain ⟨a, rfl, hmem⟩ := h
        rw [startIdx, startIdx]
        by_cases ha : a = ""
        · rw [if_pos ha, if_pos ha]
        · rw [if_neg ha, if_neg ha]
          obtain ⟨i, hi⟩ := firstMatchIdx_of_mem a _ hmem
          rw [List.map_append, firstMatchIdx_append_of_some a _ _ i hi, hi]
    have hsle : startIdx (xs.map (fun it => it.id)) after ≤ xs.length := by
      have h1 := startIdx_le_length (xs.map (fun it => it.id)) after
      simpa using h1
    have hdata : (paginate (fun it => it.id) (xs ++ ys) after (l0 + 1)).data
        = (paginate (fun it => it.id) xs after (l0 + 1)).data
          ++ ys.take ((l0 + 1) - (xs.length - startIdx (xs.map (fun it => it.id)) after)) := by
      rw [paginate_data, paginate_data, hsame]
      rw [List.drop_append_eq_append_drop,
        show startIdx (xs.map (fun it => it.id)) after - xs.length = 0 from by omega,
        List.drop_zero, List.take_append_eq_append_take, List.length_drop]
    refine ⟨hdata, ?_⟩
    intro hm
    have hP : startIdx (xs.map (fun it => it.id)) after + (l0 + 1) < xs.length :=
      of_decide_eq_true hm
    rw [hdata, show (l0 + 1) - (xs.length - startIdx (xs.map (fun it => it.id)) after) = 0
      from by omega, List.take_zero, List.append_nil]


/-- Witness for C5 at a concrete store and limit. -/
theorem load_threads_page_spec_witness :
    1 ≤ 2 ∧ (loadThreads exDB 2 none ctxAlice).data.length ≤ 2 :=
  ⟨by decide, (load_threads_page_spec exDB 2 none ctxAlice (by decide)).1⟩

/-- Witness for C6 at a concrete store: the ownership check passes and
the page is produced from the ascending item list. -/
theorem load_thread_items_spec_witness :
    threadOwned exDB "th_1" ctxAlice = true
  ∧ loadThreadItems exDB "th_1" none 2 "asc" ctxAlice
      = Except.ok (paginate (fun it => it.id)
          (if "asc" = "desc" then (threadItemsAsc exDB "th_1").reverse
           else threadItemsAsc exDB "th_1") none 2) :=
  ⟨by decide, (load_thread_items_spec exDB "th_1" none 2 "asc" ctxAlice).2.1 (by decide)⟩

/-- Witness for C10: an unknown cursor on the example store returns the
first page of threads. -/
theorem stale_cursor_first_page_witness :
    (∀ t ∈ userThreadsDesc exDB ctxAlice.userId, t.id ≠ "th_zzz")
  ∧ loadThreads exDB 2 (some "th_zzz") ctxAlice = loadThreads exDB 2 none ctxAlice :=
  ⟨by decide, (stale_cursor_first_page exDB 2 ctxAlice "th_1" "th_zzz" (by decide) (by decide)).1⟩

/-- Witness for C4: on a thread whose metadata carries a resumption
token, a new message alone becomes the agent input. -/
theorem respond_input_mode_witness :
    (threadOwned exDB exThread1.id ctxAlice = true
     ∧ truthy (metaGet exThread1.metadata "last_response_id") = true)
  ∧ selectAgentInput exDB exThread1 (some exMsg) ctxAlice = Except.ok [exMsg.item] :=
  ⟨⟨by decide, by decide⟩,
    (respond_input_mode exDB exThread1 (some exMsg) ctxAlice (by decide)).1 exMsg rfl (by decide)⟩

/-- Witness for C3: paging alice's three-item thread with limit 2
collects exactly the ascending item list. -/
theorem load_thread_items_pagination_witness :
    (threadOwned exDB "th_1" ctxAlice = true
     ∧ ((threadItemsAsc exDB "th_1").map (fun it => it.id)).Nodup
     ∧ "" ∉ (threadItemsAsc exDB "th_1").map (fun it => it.id)
     ∧ 1 ≤ 2)
  ∧ collectItemPages exDB "th_1" 2 "asc" ctxAlice (threadItemsAsc exDB "th_1").length none
      = threadItemsAsc exDB "th_1" :=
  ⟨⟨by decide, by decide, by decide, by decide⟩,
    (load_thread_items_pagination exDB "th_1" ctxAlice 2 (by decide) (by decide) (by decide)
      (by decide)).1⟩
